import Mathlib

/-!
# ObserverWard terminal-UI engine: a shallow embedding

This file embeds, in Lean, the parts of the ObserverWard repository that its
specification talks about:

* `observer_ward/ui/core/state.py` — the screen-data records
  (`TextInputData`, `SelectionData`, `NumberInputData`, `StyleManagerData`,
  `StyleEditorData`, `ConfirmationData`, `UIContext`);
* `observer_ward/ui/core/controller.py` — the per-state key handlers and the
  style-manager operations of `UIController`;
* `observer_ward/ui/keymap.py` — the `KeyMap` predicates;
* `observer_ward/ui/core/events.py` — the `EventDispatcher`;
* `observer_ward/style_persistence.py` — the pure parts of `StylePersistence`
  (`validate_style`, `toggle_favorite`) and a file-system model of its
  load/save operations.

Modelling conventions:

* Python `int` is `Int`; Python `str` is `String`; Python lists are `List`;
  a Python `dict` (insertion-ordered) is an association list with unique keys.
* File I/O is modelled by an explicit `FileSystem` record threaded through the
  operations that call the persistence layer; in this model writes succeed
  (the `False` branches of `save_styles`/`save_favorites` are I/O exceptions).
* Indexing `xs[i]` that the source only performs on indices it has already
  clamped into range is modelled with a default value (`getD`).
-/

namespace ObserverWard

/-- Python `key in (a, b, ...)` membership over strings, via `==`. -/
def pyIn (key : String) (l : List String) : Bool :=
  l.any (fun x => x == key)

/-- Python `==` between a `str` and a 2-tuple: values of different types are
never equal, so this is constantly `false`.  (Relevant to the
`key in data.items` test of `_handle_style_selection_keys`, whose elements
are `(key, display_name)` tuples.) -/
def pyStrTupleEq (_ : String) (_ : String × String) : Bool :=
  false

/-- Lexicographic strict comparison of char lists by code point
(Python `str.__lt__`). -/
def charsLt : List Char → List Char → Bool
  | [], [] => false
  | [], _ :: _ => true
  | _ :: _, [] => false
  | a :: as, b :: bs =>
    if a.toNat < b.toNat then true
    else if b.toNat < a.toNat then false
    else charsLt as bs

/-- Python `a < b` on strings. -/
def pyStrLt (a b : String) : Bool :=
  charsLt a.data b.data

/-- Python `a <= b` on strings. -/
def pyStrLe (a b : String) : Bool :=
  pyStrLt a b || a == b

/-- Insert a string into an ascending list (helper for `pySorted`). -/
def insertAsc (s : String) : List String → List String
  | [] => [s]
  | t :: ts => if pyStrLe s t then s :: t :: ts else t :: insertAsc s ts

/-- Python `sorted(...)` on a list of strings: ascending insertion sort. -/
def pySorted (l : List String) : List String :=
  l.foldr insertAsc []

/-- Python `str.strip()`: drop whitespace from both ends. -/
def pyStrip (s : String) : String :=
  String.mk (((s.data.dropWhile Char.isWhitespace).reverse.dropWhile
    Char.isWhitespace).reverse)

/-- Python `str.lower()` (ASCII model). -/
def pyLower (s : String) : String :=
  String.mk (s.data.map Char.toLower)

/-- Python `str.isalnum()` (ASCII model): non-empty and all alphanumeric. -/
def pyIsAlnum (s : String) : Bool :=
  s ≠ "" && s.data.all Char.isAlphanum

/-- One entry of the `STYLES` dict: `{"role": ..., "content": ...}`. -/
structure Style where
  role : String
  content : String
deriving DecidableEq

/-- A Python dict `{style_name: {"role": ..., "content": ...}}`, modelled as an
insertion-ordered association list. -/
abbrev StyleDict := List (String × Style)

/-- Embeds `list(d.keys())`. -/
def dictKeys (d : StyleDict) : List String :=
  d.map Prod.fst

/-- Embeds `name in d`. -/
def dictContains (d : StyleDict) (k : String) : Bool :=
  d.any (fun p => p.fst == k)

/-- Embeds `d.get(name)`. -/
def dictGet (d : StyleDict) (k : String) : Option Style :=
  (d.find? (fun p => p.fst == k)).map Prod.snd

/-- Embeds `d[name] = v`: update in place when the key exists, else append
(Python dicts preserve insertion order). -/
def dictSet (d : StyleDict) (k : String) (v : Style) : StyleDict :=
  if dictContains d k then
    d.map (fun p => if p.fst == k then (k, v) else p)
  else d ++ [(k, v)]

/-- Embeds `del d[name]` (keys are unique, so deleting by filter is faithful). -/
def dictErase (d : StyleDict) (k : String) : StyleDict :=
  d.filter (fun p => p.fst ≠ k)

/-! ## `style_persistence.py` — `StylePersistence`

The pure methods are translated directly; the file-touching methods are
modelled over an explicit `FileSystem` record.
-/

/-- The on-disk state the persistence layer touches: the `STYLES` dict stored
in `commentator_styles.py`, the `.favorites.json` list, and the most recent
`exports/styles_export_*.json` snapshot (`none` when no export file exists). -/
structure FileSystem where
  styles_file : StyleDict
  favorites_file : List String
  latest_export : Option StyleDict
deriving DecidableEq

/-- Embeds `StylePersistence.load_styles`. -/
def load_styles (fs : FileSystem) : StyleDict :=
  fs.styles_file

/-- Embeds `StylePersistence.save_styles`: `_generate_styles_dict` skips entries whose
content is empty or whitespace-only ("deleted styles"); in this model the
write always succeeds (returns `True`). -/
def save_styles (fs : FileSystem) (styles : StyleDict) : FileSystem :=
  { fs with styles_file :=
      styles.filter (fun p => !(p.snd.content == "" || pyStrip p.snd.content == "")) }

/-- Embeds `StylePersistence.load_favorites`. -/
def load_favorites (fs : FileSystem) : List String :=
  fs.favorites_file

/-- Embeds `StylePersistence.save_favorites` (always succeeds in this model). -/
def save_favorites (fs : FileSystem) (favorites : List String) : FileSystem :=
  { fs with favorites_file := favorites }

/-- Embeds `StylePersistence.validate_style`. -/
def validate_style (name content : String) : Option String :=
  if name == "" || pyStrip name == "" then
    some "Style name cannot be empty"
  else if !pyIsAlnum (String.mk (name.data.filter (fun c => c ≠ '_' && c ≠ '-'))) then
    some "Style name must be alphanumeric (underscores and hyphens allowed)"
  else if content == "" || pyStrip content == "" then
    some "Style content cannot be empty"
  else
    none

/-- Embeds `StylePersistence.toggle_favorite`: `list.remove` deletes the first
occurrence; otherwise the name is appended at the end.  (The `.copy()` of the
source is the identity in this value-level translation; the object-level
behaviour is modelled separately by `toggle_favorite_ref`.) -/
def toggle_favorite (style_name : String) (favorites : List String) : List String :=
  if style_name ∈ favorites then favorites.erase style_name
  else favorites ++ [style_name]

/-- Embeds `StylePersistence.import_styles(path, merge=True)`: load the existing
styles and add the imported entries whose names are not already present
(existing names win on conflict). -/
def import_styles_merge (fs : FileSystem) (imported : StyleDict) : StyleDict :=
  imported.foldl
    (fun acc p => if dictContains acc p.fst then acc else acc ++ [p])
    (load_styles fs)

/-! ## Python object-level model for `toggle_favorite` (aliasing)

A tiny heap of list objects: references are indices.  `favorites.copy()`
allocates a fresh cell; `remove`/`append` mutate a cell in place.
-/

/-- A heap of Python list objects. -/
abbrev Heap := List (List String)

/-- Dereference (unallocated references read as `[]`; never exercised). -/
def heapGet (h : Heap) (r : Nat) : List String :=
  (h[r]?).getD []

/-- In-place update of one cell. -/
def heapSet (h : Heap) (r : Nat) (v : List String) : Heap :=
  h.set r v

/-- Allocate a fresh cell, returning the new heap and the reference. -/
def heapAlloc (h : Heap) (v : List String) : Heap × Nat :=
  (h ++ [v], h.length)

/-- Embeds `StylePersistence.toggle_favorite` at the Python object level:
`new_favorites = favorites.copy()` allocates a fresh list object, and
`remove`/`append` mutate only that object; the reference to the new list is
returned. -/
def toggle_favorite_ref (h : Heap) (favorites : Nat) (style_name : String) :
    Heap × Nat :=
  let alloc := heapAlloc h (heapGet h favorites)
  let h1 := alloc.1
  let new_favorites := alloc.2
  let cur := heapGet h1 new_favorites
  let h2 :=
    if style_name ∈ cur then heapSet h1 new_favorites (cur.erase style_name)
    else heapSet h1 new_favorites (cur ++ [style_name])
  (h2, new_favorites)

/-! ## `ui/keymap.py` — `KeyMap` -/

namespace KeyMap

def UP_KEYS : List String := ["\xe0H", "\x1b[A", "\x1bOA"]
def DOWN_KEYS : List String := ["\xe0P", "\x1b[B", "\x1bOB"]
def LEFT_KEYS : List String := ["\xe0K", "\x1b[D", "\x1bOD"]
def RIGHT_KEYS : List String := ["\xe0M", "\x1b[C", "\x1bOC"]
def ENTER_KEYS : List String := ["\r", "\n", "\r\n"]
def ESC_KEY : String := "\x1b"
def BACKSPACE_KEY : String := "\x08"
def DIGIT_KEYS : List String := ["0", "1", "2", "3", "4", "5", "6", "7", "8", "9"]

def is_up (key : String) : Bool := pyIn key UP_KEYS
def is_down (key : String) : Bool := pyIn key DOWN_KEYS
def is_left (key : String) : Bool := pyIn key LEFT_KEYS
def is_right (key : String) : Bool := pyIn key RIGHT_KEYS
def is_enter (key : String) : Bool := pyIn key ENTER_KEYS
def is_digit (key : String) : Bool := pyIn key DIGIT_KEYS
def is_quit (key : String) : Bool := pyIn key ["q", "Q", "й", "Й", ESC_KEY]
def is_settings (key : String) : Bool := pyIn key ["9"]
def is_edit (key : String) : Bool := pyIn key ["e", "E", "у", "У"]
def is_add (key : String) : Bool := pyIn key ["a", "A", "ф", "Ф"]
def is_delete (key : String) : Bool := pyIn key ["d", "D", "в", "В"]
def is_tab (key : String) : Bool := key == "\t"

/-- Embeds `str.isprintable()` on a single character (ASCII model: not a control
character). -/
def pyCharPrintable (c : Char) : Bool :=
  32 ≤ c.toNat && c.toNat ≠ 127

def is_printable (key : String) : Bool :=
  key.length == 1 && key.data.all pyCharPrintable &&
    !pyIn key [" ", "\t", "\n", "\r"]

def is_copy (key : String) : Bool := pyIn key ["c", "C", "с", "С"]
def is_export (key : String) : Bool := pyIn key ["x", "X", "ч", "Ч"]
def is_import (key : String) : Bool := pyIn key ["i", "I", "ш", "Ш"]
def is_favorite (key : String) : Bool := pyIn key ["f", "F", "а", "А"]
def is_sort (key : String) : Bool := pyIn key ["s", "S", "ы", "Ы"]

end KeyMap

/-! ## `ui/core/events.py` — `EventDispatcher` -/

inductive EventType where
  | keyboard
  | mouse_move
  | mouse_click
  | no_event
deriving DecidableEq

structure Event where
  type : EventType
  key : Option String := none
  mouse_x : Option Int := none
  mouse_y : Option Int := none
deriving DecidableEq

/-- Embeds `EventDispatcher`: `_setup_input` sets `_has_msvcrt := False` when the
`msvcrt` module cannot be imported.  The console input buffer read through
`msvcrt` is modelled as a list of pending classified keys. -/
structure EventDispatcher where
  has_msvcrt : Bool
  pending : List String
deriving DecidableEq

/-- Embeds `EventDispatcher.get_event`: with no `msvcrt` it returns `None`
immediately; otherwise it pops a pending key (if any) and wraps it in a
keyboard event.  Returns the event (or `none`) and the dispatcher after the
read. -/
def EventDispatcher.get_event (d : EventDispatcher) :
    Option Event × EventDispatcher :=
  if !d.has_msvcrt then (none, d)
  else
    match d.pending with
    | [] => (none, d)
    | k :: rest =>
      (some { type := EventType.keyboard, key := some k },
       { d with pending := rest })

/-! ## `ui/core/state.py` — enums and screen-data records -/

/-- Embeds `UIState`. -/
inductive UIState where
  | style_selection
  | style_manager
  | style_editor
  | settings
  | number_input
  | confirmation
  | confirmed
  | cancelled
  | text_input
deriving DecidableEq

/-- Python slice splice `s[:i] + c + s[i:]` (used with `0 <= i <= len(s)`). -/
def strSplice (s : String) (i : Int) (c : Char) : String :=
  String.mk (s.data.take i.toNat ++ c :: s.data.drop i.toNat)

/-- Python `s[:i-1] + s[i:]` (delete the char before position `i`;
used with `1 <= i <= len(s)`). -/
def strDelBefore (s : String) (i : Int) : String :=
  String.mk (s.data.take (i - 1).toNat ++ s.data.drop i.toNat)

/-- Embeds `TextInputData` (chat screen). -/
structure TextInputData where
  prompt : String := "Enter message"
  current_value : String := ""
  cursor_position : Int := 0
  history : List String := []
deriving DecidableEq

/-- Embeds `TextInputData.insert_char`. -/
def TextInputData.insert_char (d : TextInputData) (c : Char) : TextInputData :=
  { d with current_value := strSplice d.current_value d.cursor_position c,
           cursor_position := d.cursor_position + 1 }

/-- Embeds `TextInputData.backspace`. -/
def TextInputData.backspace (d : TextInputData) : TextInputData :=
  if d.cursor_position > 0 then
    { d with current_value := strDelBefore d.current_value d.cursor_position,
             cursor_position := d.cursor_position - 1 }
  else d

/-- Embeds `TextInputData.move_cursor_left`. -/
def TextInputData.move_cursor_left (d : TextInputData) : TextInputData :=
  { d with cursor_position := max 0 (d.cursor_position - 1) }

/-- Embeds `TextInputData.move_cursor_right`. -/
def TextInputData.move_cursor_right (d : TextInputData) : TextInputData :=
  { d with
      cursor_position := min (d.current_value.length : Int) (d.cursor_position + 1) }

/-- Embeds `SelectionData` (menu selection screens). -/
structure SelectionData where
  items : List (String × String)
  selected_index : Int := 0
  hover_index : Option Int := none
  title : String := "Menu"
deriving DecidableEq

/-- Embeds `SelectionData.get_selected_item`. -/
def SelectionData.get_selected_item (d : SelectionData) :
    Option (String × String) :=
  if 0 ≤ d.selected_index ∧ d.selected_index < (d.items.length : Int) then
    d.items.get? d.selected_index.toNat
  else none

/-- Embeds `NumberInputData`.  The `target_attr` and `previous_state` fields model
the `_target_attr` / `_previous_state` attributes that
`UIController._transition_to_number_input` sets dynamically on the record. -/
structure NumberInputData where
  prompt : String := "Enter number"
  current_value : String := ""
  default_value : Int := 0
  min_value : Option Int := none
  max_value : Option Int := none
  result : Option Int := none
  target_attr : Option String := none
  previous_state : UIState := UIState.style_selection
deriving DecidableEq

/-- Embeds `NumberInputData.get_display_value`. -/
def NumberInputData.get_display_value (d : NumberInputData) : String :=
  if d.current_value == "" then toString d.default_value else d.current_value

/-- Embeds `NumberInputData.append_digit`. -/
def NumberInputData.append_digit (d : NumberInputData) (digit : String) :
    NumberInputData :=
  { d with current_value := d.current_value ++ digit }

/-- Embeds `NumberInputData.backspace` (drops the last character). -/
def NumberInputData.backspace (d : NumberInputData) : NumberInputData :=
  if d.current_value == "" then d
  else { d with current_value := String.mk d.current_value.data.dropLast }

/-- No two consecutive underscores (part of Python's `int()` grammar). -/
def noDoubleUnderscore : List Char → Bool
  | [] => true
  | [_] => true
  | a :: b :: rest =>
    !(a == '_' && b == '_') && noDoubleUnderscore (b :: rest)

/-- Decimal value of a digit list, underscores skipped. -/
def digitsToNat (cs : List Char) : Nat :=
  cs.foldl (fun acc c => acc * 10 + (c.toNat - '0'.toNat)) 0

/-- Python `int(s)` on a string: strip whitespace, optional sign, then a
non-empty digit string in which single underscores may separate digits;
`none` models the `ValueError`. -/
def pyInt (s : String) : Option Int :=
  let cs := ((s.data.dropWhile Char.isWhitespace).reverse.dropWhile
    Char.isWhitespace).reverse
  let sign : Int := match cs with
    | '-' :: _ => -1
    | _ => 1
  let ds := match cs with
    | '+' :: rest => rest
    | '-' :: rest => rest
    | other => other
  if ds ≠ [] && ds.head? ≠ some '_' && ds.getLast? ≠ some '_' &&
      ds.all (fun c => c.isDigit || c == '_') && noDoubleUnderscore ds then
    some (sign * (digitsToNat (ds.filter (fun c => c ≠ '_')) : Int))
  else none

/-- Embeds `NumberInputData.confirm`: returns the `bool` result of the method and
the record after the call (`result` is written only on success). -/
def NumberInputData.confirm (d : NumberInputData) : Bool × NumberInputData :=
  match (if d.current_value ≠ "" then pyInt d.current_value
         else some d.default_value) with
  | none => (false, d)
  | some val =>
    if (match d.min_value with
        | some m => decide (val < m)
        | none => false) then (false, d)
    else if (match d.max_value with
        | some m => decide (m < val)
        | none => false) then (false, d)
    else (true, { d with result := some val })

/-- Embeds `StyleManagerData`. -/
structure StyleManagerData where
  styles : StyleDict := []
  style_names : List String := []
  selected_index : Int := 0
  hover_index : Option Int := none
  message : String := ""
  favorites : List String := []
  sort_mode : String := "A-Z"
deriving DecidableEq

/-- Embeds `StyleEditorData`. -/
structure StyleEditorData where
  style_name : String := ""
  original_name : String := ""
  content : String := ""
  cursor_position : Int := 0
  is_editing_name : Bool := true
  is_new : Bool := true
  error_message : String := ""
deriving DecidableEq

/-- Embeds `StyleEditorData.insert_char`. -/
def StyleEditorData.insert_char (d : StyleEditorData) (c : Char) :
    StyleEditorData :=
  if d.is_editing_name then
    { d with style_name := strSplice d.style_name d.cursor_position c,
             cursor_position := d.cursor_position + 1 }
  else
    { d with content := strSplice d.content d.cursor_position c,
             cursor_position := d.cursor_position + 1 }

/-- Embeds `StyleEditorData.backspace`. -/
def StyleEditorData.backspace (d : StyleEditorData) : StyleEditorData :=
  if d.cursor_position > 0 then
    if d.is_editing_name then
      { d with style_name := strDelBefore d.style_name d.cursor_position,
               cursor_position := d.cursor_position - 1 }
    else
      { d with content := strDelBefore d.content d.cursor_position,
               cursor_position := d.cursor_position - 1 }
  else d

/-- Embeds `StyleEditorData.move_cursor_left`. -/
def StyleEditorData.move_cursor_left (d : StyleEditorData) : StyleEditorData :=
  { d with cursor_position := max 0 (d.cursor_position - 1) }

/-- Embeds `StyleEditorData.move_cursor_right`. -/
def StyleEditorData.move_cursor_right (d : StyleEditorData) : StyleEditorData :=
  let text := if d.is_editing_name then d.style_name else d.content
  { d with cursor_position := min (text.length : Int) (d.cursor_position + 1) }

/-- Embeds `ConfirmationData`. -/
structure ConfirmationData where
  prompt : String := "Are you sure?"
  action_name : String := ""
  confirmed : Option Bool := none
  previous_state : UIState := UIState.style_manager
deriving DecidableEq

/-- Embeds `UIContext`.  (`settings_data` is omitted: none of the verified claims
touches the settings record, only the `UIState.settings` tag.) -/
structure UIContext where
  state : UIState := UIState.style_selection
  selection_data : Option SelectionData := none
  number_input_data : Option NumberInputData := none
  style_manager_data : Option StyleManagerData := none
  style_editor_data : Option StyleEditorData := none
  confirmation_data : Option ConfirmationData := none
  text_input_data : Option TextInputData := none
  style_key_mapping : List (String × String) := []
  selected_style : Option (String × String) := none
  selected_interval : Int := 15
  user_message : Option String := none
deriving DecidableEq

/-! ## `ui/core/controller.py` — `UIController`

The handlers mutate `self.context` and call the persistence layer; here each
is a function from (file system, context, key) to the updated pair.  Handlers
that never touch the disk take the `FileSystem` only where the source reads
it.
-/

/-- The re-sort pattern written out in `_enter_style_manager`, `_copy_style`,
`_toggle_favorite`, `_import_styles` and `_toggle_sort`:
`fav_names = [n for n in all_names if n in favorites]` followed by the rest,
both kept in the order of `all_names`. -/
def favFirst (favorites all_names : List String) : List String :=
  all_names.filter (fun n => pyIn n favorites) ++
    all_names.filter (fun n => !pyIn n favorites)

/-- Python `str.title()` (ASCII model): uppercase a letter that follows a
non-letter, lowercase the others. -/
def pyTitleGo : Bool → List Char → List Char
  | _, [] => []
  | prevAlpha, c :: cs =>
    (if c.isAlpha then (if prevAlpha then c.toLower else c.toUpper) else c) ::
      pyTitleGo c.isAlpha cs

/-- Embeds `k.replace('_', ' ').title()` as used by `_reload_style_selection`. -/
def styleTitle (k : String) : String :=
  String.mk (pyTitleGo false (k.data.map (fun c => if c == '_' then ' ' else c)))

/-- Embeds `UIController._reload_style_selection`: rebuild the selection items and
the numeric-key mapping from the styles module (whose `STYLES` dict is the
styles file), numbering from `"1"`, and clamp the selection index. -/
def reload_style_selection (fs : FileSystem) (ctx : UIContext) : UIContext :=
  match ctx.selection_data with
  | none => ctx
  | some sel =>
    let keys := dictKeys (load_styles fs)
    let new_items := (List.range keys.length).map
      (fun i => (toString (i + 1), styleTitle (keys.getD i "")))
    let new_mapping := (List.range keys.length).map
      (fun i => (toString (i + 1), keys.getD i ""))
    let sel :=
      if (new_items.length : Int) ≤ sel.selected_index then
        { sel with selected_index := max 0 ((new_items.length : Int) - 1) }
      else sel
    { ctx with selection_data := some { sel with items := new_items },
               style_key_mapping := new_mapping }

/-- Embeds `UIController._transition_to_number_input`. -/
def transition_to_number_input (ctx : UIContext) (prompt : String)
    (default : Int) (target_attr : Option String) : UIContext :=
  { ctx with
      number_input_data := some { prompt := prompt, default_value := default,
                                  target_attr := target_attr,
                                  previous_state := ctx.state },
      state := UIState.number_input }

/-- Embeds `UIController._enter_style_manager`: load styles and favorites, sort the
names favorites-first then ascending, and enter the manager screen. -/
def enter_style_manager (fs : FileSystem) (ctx : UIContext) : UIContext :=
  let styles := load_styles fs
  let favorites := load_favorites fs
  let all_names := pySorted (dictKeys styles)
  { ctx with
      style_manager_data := some { styles := styles,
                                   style_names := favFirst favorites all_names,
                                   selected_index := 0,
                                   favorites := favorites },
      state := UIState.style_manager }

/-- Embeds `UIController._handle_style_selection_keys`.  Only reads the file system
(through `_enter_style_manager`).  The final `elif key in data.items` branch
tests the key string for membership in a list of `(key, name)` tuples, which
in Python is always `False` (`pyStrTupleEq`). -/
def handle_style_selection_keys (fs : FileSystem) (ctx : UIContext)
    (key : String) : UIContext :=
  match ctx.selection_data with
  | none => ctx
  | some data =>
    if KeyMap.is_up key then
      { ctx with selection_data := some { data with
          selected_index := max 0 (data.selected_index - 1) } }
    else if KeyMap.is_down key then
      { ctx with selection_data := some { data with
          selected_index := min ((data.items.length : Int) - 1)
            (data.selected_index + 1) } }
    else if KeyMap.is_enter key then
      match data.get_selected_item with
      | some selected =>
        transition_to_number_input { ctx with selected_style := some selected }
          "Enter interval (seconds)" ctx.selected_interval none
      | none => ctx
    else if KeyMap.is_quit key then
      { ctx with state := UIState.cancelled }
    else if KeyMap.is_settings key then
      { ctx with state := UIState.settings }
    else if KeyMap.is_edit key then
      enter_style_manager fs ctx
    else if data.items.any (fun item => pyStrTupleEq key item) then
      { ctx with selection_data := some { data with
          selected_index := ((data.items.map Prod.fst).indexOf key : Int) } }
    else ctx

/-- Embeds `UIController._apply_number_input_result`. -/
def apply_number_input_result (ctx : UIContext) : UIContext :=
  match ctx.number_input_data with
  | none => ctx
  | some data =>
    match data.result with
    | none => ctx
    | some result =>
      match data.target_attr with
      | some _ => { ctx with state := UIState.settings }
      | none => { ctx with selected_interval := result,
                           state := UIState.confirmed }

/-- Embeds `UIController._cancel_number_input`. -/
def cancel_number_input (ctx : UIContext) : UIContext :=
  match ctx.number_input_data with
  | none => { ctx with state := UIState.style_selection }
  | some data => { ctx with state := data.previous_state }

/-- Embeds `UIController._handle_number_input_keys`. -/
def handle_number_input_keys (ctx : UIContext) (key : String) : UIContext :=
  match ctx.number_input_data with
  | none => ctx
  | some data =>
    if KeyMap.is_digit key then
      { ctx with number_input_data := some (data.append_digit key) }
    else if key == KeyMap.BACKSPACE_KEY then
      { ctx with number_input_data := some data.backspace }
    else if KeyMap.is_enter key then
      let r := data.confirm
      if r.1 then
        apply_number_input_result { ctx with number_input_data := some r.2 }
      else { ctx with number_input_data := some r.2 }
    else if key == KeyMap.ESC_KEY then
      cancel_number_input ctx
    else ctx

/-- Embeds `UIController._enter_style_editor`. -/
def enter_style_editor (ctx : UIContext) (is_new : Bool)
    (style_name : String) : UIContext :=
  if is_new then
    { ctx with
        style_editor_data := some { style_name := "", original_name := "",
                                    content := "", is_new := true,
                                    is_editing_name := true },
        state := UIState.style_editor }
  else
    match ctx.style_manager_data with
    | some data =>
      match dictGet data.styles style_name with
      | some style_data =>
        { ctx with
            style_editor_data := some { style_name := style_name,
                                        original_name := style_name,
                                        content := style_data.content,
                                        cursor_position := (style_name.length : Int),
                                        is_new := false,
                                        is_editing_name := true },
            state := UIState.style_editor }
      | none => { ctx with state := UIState.style_editor }
    | none => { ctx with state := UIState.style_editor }

/-- Embeds `UIController._save_style_from_editor`. -/
def save_style_from_editor (fs : FileSystem) (ctx : UIContext) :
    UIContext × FileSystem :=
  match ctx.style_editor_data with
  | none => (ctx, fs)
  | some data =>
    match validate_style data.style_name data.content with
    | some error =>
      ({ ctx with style_editor_data := some { data with error_message := error } },
       fs)
    | none =>
      match ctx.style_manager_data with
      | none => (ctx, fs)
      | some manager_data =>
        let styles :=
          if !data.is_new && data.original_name ≠ data.style_name then
            dictErase manager_data.styles data.original_name
          else manager_data.styles
        let styles := dictSet styles data.style_name
          { role := "system", content := data.content }
        let fs := save_styles fs styles
        let style_names := pySorted (dictKeys styles)
        let selected_index :=
          match style_names.indexOf? data.style_name with
          | some i => (i : Int)
          | none => manager_data.selected_index
        let ctx :=
          { ctx with style_manager_data := some { manager_data with
              styles := styles,
              style_names := style_names,
              message := "Successfully saved \x27" ++ data.style_name ++ "\x27",
              selected_index := selected_index } }
        let ctx := reload_style_selection fs ctx
        ({ ctx with state := UIState.style_manager }, fs)

/-- Embeds `UIController._show_delete_confirmation`. -/
def show_delete_confirmation (ctx : UIContext) (style_name : String) :
    UIContext :=
  { ctx with
      confirmation_data := some
        { prompt := "Delete style \x27" ++ style_name ++ "\x27?",
          action_name := style_name,
          previous_state := UIState.style_manager },
      state := UIState.confirmation }

/-- Embeds `UIController._execute_delete_style`: remove the entry, persist, reload
from disk, re-sort plainly and clamp the selection. -/
def execute_delete_style (fs : FileSystem) (ctx : UIContext)
    (style_name : String) : UIContext × FileSystem :=
  match ctx.style_manager_data with
  | none => (ctx, fs)
  | some data =>
    if dictContains data.styles style_name then
      let styles := dictErase data.styles style_name
      let fs := save_styles fs styles
      let newStyles := load_styles fs
      let style_names := pySorted (dictKeys newStyles)
      let selected_index :=
        if style_names ≠ [] then
          max 0 (min data.selected_index ((style_names.length : Int) - 1))
        else 0
      ({ ctx with style_manager_data := some { data with
          styles := newStyles,
          style_names := style_names,
          message := "Deleted \x27" ++ style_name ++ "\x27",
          selected_index := selected_index } },
       fs)
    else (ctx, fs)

/-- Embeds `UIController._handle_confirmation_keys`. -/
def handle_confirmation_keys (fs : FileSystem) (ctx : UIContext)
    (key : String) : UIContext × FileSystem :=
  match ctx.confirmation_data with
  | none => (ctx, fs)
  | some data =>
    if pyLower key == "y" then
      let ctx := { ctx with confirmation_data := some { data with
        confirmed := some true } }
      let r := execute_delete_style fs ctx data.action_name
      ({ r.1 with state := data.previous_state }, r.2)
    else if pyLower key == "n" || key == KeyMap.ESC_KEY then
      ({ ctx with
          confirmation_data := some { data with confirmed := some false },
          state := data.previous_state },
       fs)
    else (ctx, fs)

/-- Probe loop of `_copy_style`: `name_copy_2`, `name_copy_3`, ... until the
name is free.  The source's `while` always terminates because the dict is
finite; here the fuel `styles.length + 2` is enough to reach a free name. -/
def copyNameLoop (styles : StyleDict) (base : String) :
    Nat → Nat → String
  | 0, k => base ++ "_copy_" ++ toString k
  | fuel + 1, k =>
    let cand := base ++ "_copy_" ++ toString k
    if dictContains styles cand then copyNameLoop styles base fuel (k + 1)
    else cand

/-- Unique copy-name probing of `_copy_style` (`name_copy`, then
`name_copy_2`, ...). -/
def copyName (styles : StyleDict) (base : String) : String :=
  let first := base ++ "_copy"
  if dictContains styles first then
    copyNameLoop styles base (styles.length + 2) 2
  else first

/-- Embeds `UIController._copy_style`. -/
def copy_style (fs : FileSystem) (ctx : UIContext) (style_name : String) :
    UIContext × FileSystem :=
  match ctx.style_manager_data with
  | none => (ctx, fs)
  | some data =>
    if !dictContains data.styles style_name then (ctx, fs)
    else
      let new_name := copyName data.styles style_name
      let styles := dictSet data.styles new_name
        ((dictGet data.styles style_name).getD { role := "", content := "" })
      let fs := save_styles fs styles
      let newStyles := load_styles fs
      let all_names := pySorted (dictKeys newStyles)
      let style_names := favFirst data.favorites all_names
      let selected_index :=
        match style_names.indexOf? new_name with
        | some i => (i : Int)
        | none => data.selected_index
      let ctx :=
        { ctx with style_manager_data := some { data with
            styles := newStyles,
            style_names := style_names,
            selected_index := selected_index,
            message := "Copied to \x27" ++ new_name ++ "\x27" } }
      (reload_style_selection fs ctx, fs)

/-- Embeds `UIController._toggle_favorite`. -/
def toggle_favorite_op (fs : FileSystem) (ctx : UIContext)
    (style_name : String) : UIContext × FileSystem :=
  match ctx.style_manager_data with
  | none => (ctx, fs)
  | some data =>
    let new_favorites := toggle_favorite style_name data.favorites
    let fs := save_favorites fs new_favorites
    let all_names := pySorted (dictKeys data.styles)
    let style_names := favFirst new_favorites all_names
    let selected_index :=
      match style_names.indexOf? style_name with
      | some i => (i : Int)
      | none => 0
    let status :=
      if style_name ∈ new_favorites then "★ Starred" else "☆ Unstarred"
    ({ ctx with style_manager_data := some { data with
        favorites := new_favorites,
        style_names := style_names,
        selected_index := selected_index,
        message := status ++ ": \x27" ++ style_name ++ "\x27" } },
     fs)

/-- Embeds `UIController._export_styles`: write a snapshot of the current styles
(the timestamped path is abstracted away; the snapshot becomes the latest
export). -/
def export_styles_op (fs : FileSystem) (ctx : UIContext) :
    UIContext × FileSystem :=
  match ctx.style_manager_data with
  | none => (ctx, fs)
  | some data =>
    ({ ctx with style_manager_data := some { data with
        message := "Exported styles snapshot" } },
     { fs with latest_export := some data.styles })

/-- Embeds `UIController._import_styles`: merge the latest export (existing names
win), save, reload and re-sort favorites-first ascending.  An empty merged
dict is falsy in Python, so it takes the `"Import failed"` branch. -/
def import_styles_op (fs : FileSystem) (ctx : UIContext) :
    UIContext × FileSystem :=
  match ctx.style_manager_data with
  | none => (ctx, fs)
  | some data =>
    match fs.latest_export with
    | none =>
      ({ ctx with style_manager_data := some { data with
          message := "No export files found" } }, fs)
    | some imported =>
      let merged_styles := import_styles_merge fs imported
      if merged_styles ≠ [] then
        let fs := save_styles fs merged_styles
        let newStyles := load_styles fs
        let all_names := pySorted (dictKeys newStyles)
        let style_names := favFirst data.favorites all_names
        let ctx :=
          { ctx with style_manager_data := some { data with
              styles := newStyles,
              style_names := style_names,
              message := "Imported latest export" } }
        (reload_style_selection fs ctx, fs)
      else
        ({ ctx with style_manager_data := some { data with
            message := "Import failed" } }, fs)

/-- Embeds `UIController._toggle_sort`: flip the mode, sort ascending, reverse for
`Z-A`, favorites pinned first, clamp the selection. -/
def toggle_sort_op (ctx : UIContext) : UIContext :=
  match ctx.style_manager_data with
  | none => ctx
  | some data =>
    let sort_mode := if data.sort_mode == "A-Z" then "Z-A" else "A-Z"
    let all_names := pySorted (dictKeys data.styles)
    let all_names := if sort_mode == "Z-A" then all_names.reverse else all_names
    let style_names := favFirst data.favorites all_names
    let selected_index :=
      if (style_names.length : Int) ≤ data.selected_index then
        max 0 ((style_names.length : Int) - 1)
      else data.selected_index
    { ctx with style_manager_data := some { data with
        sort_mode := sort_mode,
        style_names := style_names,
        selected_index := selected_index,
        message := "Sorted " ++ sort_mode } }

/-- Embeds `UIController._handle_style_manager_keys`. -/
def handle_style_manager_keys (fs : FileSystem) (ctx : UIContext)
    (key : String) : UIContext × FileSystem :=
  match ctx.style_manager_data with
  | none => (ctx, fs)
  | some data =>
    if KeyMap.is_up key then
      ({ ctx with style_manager_data := some { data with
          selected_index := max 0 (data.selected_index - 1),
          message := "" } }, fs)
    else if KeyMap.is_down key then
      ({ ctx with style_manager_data := some { data with
          selected_index := min ((data.style_names.length : Int) - 1)
            (data.selected_index + 1),
          message := "" } }, fs)
    else if KeyMap.is_add key then
      (enter_style_editor ctx true "", fs)
    else if KeyMap.is_edit key then
      if data.style_names ≠ [] then
        (enter_style_editor ctx false
          (data.style_names.getD data.selected_index.toNat ""), fs)
      else (ctx, fs)
    else if KeyMap.is_copy key then
      if data.style_names ≠ [] then
        copy_style fs ctx (data.style_names.getD data.selected_index.toNat "")
      else (ctx, fs)
    else if KeyMap.is_favorite key then
      if data.style_names ≠ [] then
        toggle_favorite_op fs ctx
          (data.style_names.getD data.selected_index.toNat "")
      else (ctx, fs)
    else if KeyMap.is_sort key then
      (toggle_sort_op ctx, fs)
    else if KeyMap.is_delete key then
      if data.style_names ≠ [] then
        (show_delete_confirmation ctx
          (data.style_names.getD data.selected_index.toNat ""), fs)
      else (ctx, fs)
    else if KeyMap.is_export key then
      export_styles_op fs ctx
    else if KeyMap.is_import key then
      import_styles_op fs ctx
    else if key == KeyMap.ESC_KEY then
      ({ reload_style_selection fs ctx with state := UIState.style_selection },
       fs)
    else (ctx, fs)

/-- Embeds `UIController._handle_style_editor_keys`. -/
def handle_style_editor_keys (fs : FileSystem) (ctx : UIContext)
    (key : String) : UIContext × FileSystem :=
  match ctx.style_editor_data with
  | none => (ctx, fs)
  | some data =>
    if KeyMap.is_tab key then
      let data := { data with is_editing_name := !data.is_editing_name }
      let data :=
        if data.is_editing_name then
          { data with cursor_position := (data.style_name.length : Int) }
        else
          { data with cursor_position := (data.content.length : Int) }
      ({ ctx with style_editor_data := some { data with error_message := "" } },
       fs)
    else if KeyMap.is_enter key then
      if data.is_editing_name then
        save_style_from_editor fs ctx
      else
        ({ ctx with style_editor_data := some { data with
            content := strSplice data.content data.cursor_position '\n',
            cursor_position := data.cursor_position + 1,
            error_message := "" } }, fs)
    else if key == KeyMap.ESC_KEY then
      save_style_from_editor fs ctx
    else if key == KeyMap.BACKSPACE_KEY then
      let data :=
        if data.is_editing_name then
          if data.cursor_position > 0 then
            { data with
                style_name := strDelBefore data.style_name data.cursor_position,
                cursor_position := data.cursor_position - 1 }
          else data
        else
          if data.cursor_position > 0 then
            { data with
                content := strDelBefore data.content data.cursor_position,
                cursor_position := data.cursor_position - 1 }
          else data
      ({ ctx with style_editor_data := some { data with error_message := "" } },
       fs)
    else if key == " " then
      if data.is_editing_name then
        ({ ctx with style_editor_data := some { data with
            error_message := "Style names cannot contain spaces" } }, fs)
      else
        ({ ctx with style_editor_data := some { data with
            content := strSplice data.content data.cursor_position ' ',
            cursor_position := data.cursor_position + 1,
            error_message := "" } }, fs)
    else if KeyMap.is_left key then
      ({ ctx with style_editor_data := some data.move_cursor_left }, fs)
    else if KeyMap.is_right key then
      ({ ctx with style_editor_data := some data.move_cursor_right }, fs)
    else if KeyMap.is_printable key then
      match key.data with
      | [c] =>
        ({ ctx with style_editor_data := some { data.insert_char c with
            error_message := "" } }, fs)
      | _ => (ctx, fs)
    else (ctx, fs)

/-! ## Derived machinery for the verified properties -/

/-- One text-buffer editing call (shared shape across the input records). -/
inductive BufOp where
  | insert (c : Char)
  | back
  | left
  | right
deriving DecidableEq

/-- Apply one editing call to a `TextInputData`. -/
def tiStep (d : TextInputData) : BufOp → TextInputData
  | BufOp.insert c => d.insert_char c
  | BufOp.back => d.backspace
  | BufOp.left => d.move_cursor_left
  | BufOp.right => d.move_cursor_right

/-- Apply a sequence of editing calls to a `TextInputData`. -/
def tiRun (ops : List BufOp) (d : TextInputData) : TextInputData :=
  ops.foldl tiStep d

/-- Apply one editing call to a `StyleEditorData`. -/
def seStep (d : StyleEditorData) : BufOp → StyleEditorData
  | BufOp.insert c => d.insert_char c
  | BufOp.back => d.backspace
  | BufOp.left => d.move_cursor_left
  | BufOp.right => d.move_cursor_right

/-- Apply a sequence of editing calls to a `StyleEditorData`. -/
def seRun (ops : List BufOp) (d : StyleEditorData) : StyleEditorData :=
  ops.foldl seStep d

/-- The text-buffer invariant of the chat input record. -/
abbrev tiInv (d : TextInputData) : Prop :=
  0 ≤ d.cursor_position ∧ d.cursor_position ≤ (d.current_value.length : Int)

/-- The buffer the editor cursor currently addresses. -/
def seActive (d : StyleEditorData) : String :=
  if d.is_editing_name then d.style_name else d.content

/-- The text-buffer invariant of the style editor record. -/
abbrev seInv (d : StyleEditorData) : Prop :=
  0 ≤ d.cursor_position ∧ d.cursor_position ≤ ((seActive d).length : Int)

/-- Feed a sequence of keys to the style-selection handler. -/
def runSelectionKeys (fs : FileSystem) (keys : List String) (ctx : UIContext) :
    UIContext :=
  keys.foldl (fun c k => handle_style_selection_keys fs c k) ctx

/-- Feed a sequence of keys to the style-manager handler, threading the file
system. -/
def runManagerKeys (fs : FileSystem) (keys : List String) (ctx : UIContext) :
    UIContext × FileSystem :=
  keys.foldl (fun p k => handle_style_manager_keys p.2 p.1 k) (ctx, fs)

/-- The six style-manager mutations the spec's `style_names` invariant ranges
over. -/
inductive ManagerMutation where
  | save
  | deleteStyle (name : String)
  | copyStyle (name : String)
  | favoriteToggle (name : String)
  | sortToggle
  | importLatest
deriving DecidableEq

/-- Dispatch a mutation to the corresponding controller operation. -/
def applyMutation (fs : FileSystem) (ctx : UIContext) :
    ManagerMutation → UIContext × FileSystem
  | ManagerMutation.save => save_style_from_editor fs ctx
  | ManagerMutation.deleteStyle name => execute_delete_style fs ctx name
  | ManagerMutation.copyStyle name => copy_style fs ctx name
  | ManagerMutation.favoriteToggle name => toggle_favorite_op fs ctx name
  | ManagerMutation.sortToggle => (toggle_sort_op ctx, fs)
  | ManagerMutation.importLatest => import_styles_op fs ctx

/-- Preconditions under which each mutation actually mutates the manager
data (the screen data exists; the operated-on style exists; the editor holds
a valid style; an export snapshot exists and the merge is non-empty). -/
def mutationPre (fs : FileSystem) (ctx : UIContext) : ManagerMutation → Bool
  | ManagerMutation.save =>
    ctx.style_manager_data.isSome &&
      (match ctx.style_editor_data with
       | some e => (validate_style e.style_name e.content).isNone
       | none => false)
  | ManagerMutation.deleteStyle name =>
    (match ctx.style_manager_data with
     | some d => dictContains d.styles name
     | none => false)
  | ManagerMutation.copyStyle name =>
    (match ctx.style_manager_data with
     | some d => dictContains d.styles name
     | none => false)
  | ManagerMutation.favoriteToggle _ => ctx.style_manager_data.isSome
  | ManagerMutation.sortToggle => ctx.style_manager_data.isSome
  | ManagerMutation.importLatest =>
    ctx.style_manager_data.isSome &&
      (match fs.latest_export with
       | some imported => import_styles_merge fs imported ≠ []
       | none => false)

/-- The spec's description of the derived `style_names` order: favorite names
first, followed by the remaining names, alphabetically in the direction given
by `sort_mode`. -/
def styleNamesSpec (favorites : List String) (sort_mode : String)
    (names : List String) : List String :=
  let sorted := pySorted names
  let sorted := if sort_mode == "Z-A" then sorted.reverse else sorted
  favFirst favorites sorted

/-- The order `style_names` actually has after each mutation (the corrected
claim): save and delete reset it to plain ascending order; copy, favorite
toggle and import pin favorites first but always sort ascending; only the
sort toggle applies the full favorites-first-in-`sort_mode`-direction rule. -/
def expectedNames : ManagerMutation → StyleManagerData → List String
  | ManagerMutation.save, d => pySorted (dictKeys d.styles)
  | ManagerMutation.deleteStyle _, d => pySorted (dictKeys d.styles)
  | ManagerMutation.copyStyle _, d => favFirst d.favorites (pySorted (dictKeys d.styles))
  | ManagerMutation.favoriteToggle _, d => favFirst d.favorites (pySorted (dictKeys d.styles))
  | ManagerMutation.importLatest, d => favFirst d.favorites (pySorted (dictKeys d.styles))
  | ManagerMutation.sortToggle, d => styleNamesSpec d.favorites d.sort_mode (dictKeys d.styles)

/-- The spec's description of the numeric confirm algorithm: parse
`current_value` as an integer, falling back to `default_value` if empty;
reject (returning `false`, record untouched) if parsing fails or the value
falls outside the optional `[min_value, max_value]` bounds; otherwise store
the value in `result` and return `true`. -/
def confirmSpec (d : NumberInputData) : Bool × NumberInputData :=
  let parsed := if d.current_value = "" then some d.default_value
                else pyInt d.current_value
  match parsed with
  | none => (false, d)
  | some v =>
    if (d.min_value.all (fun m => decide (m ≤ v))) &&
        (d.max_value.all (fun m => decide (v ≤ m))) then
      (true, { d with result := some v })
    else (false, d)

/-- The styles dict `_save_style_from_editor` persists on a successful save:
the renamed-away entry dropped, the edited entry set with role `"system"`. -/
def editorNewStyles (e : StyleEditorData) (d : StyleManagerData) : StyleDict :=
  dictSet
    (if !e.is_new && e.original_name ≠ e.style_name then
      dictErase d.styles e.original_name
    else d.styles)
    e.style_name { role := "system", content := e.content }

/-! ## Concrete fixtures (for counterexamples and witnesses) -/

def styA : Style := { role := "system", content := "content a" }
def styB : Style := { role := "system", content := "content b" }
def styC : Style := { role := "system", content := "content c" }

/-- A file system holding three styles, with `"c"` marked favorite. -/
def fs0 : FileSystem :=
  { styles_file := [("a", styA), ("b", styB), ("c", styC)],
    favorites_file := ["c"],
    latest_export := none }

/-- The manager data `_enter_style_manager` builds from `fs0`. -/
def mgr0 : StyleManagerData :=
  { styles := fs0.styles_file,
    style_names := ["c", "a", "b"],
    selected_index := 0,
    favorites := ["c"] }

/-- A context sitting on the style-manager screen. -/
def ctxMgr : UIContext :=
  { state := UIState.style_manager, style_manager_data := some mgr0 }

/-- The confirmation record `_show_delete_confirmation` builds for `"a"`. -/
def confA : ConfirmationData :=
  { prompt := "Delete style \x27a\x27?",
    action_name := "a",
    previous_state := UIState.style_manager }

/-- A context sitting on the delete-confirmation screen for `"a"`. -/
def ctxConf : UIContext :=
  { ctxMgr with state := UIState.confirmation,
                confirmation_data := some confA }

/-- A selection context with two items, as in the spec's scenario. -/
def ctxSel : UIContext :=
  { state := UIState.style_selection,
    selection_data := some { items := [("1", "Sarcastic"), ("2", "Poetic")],
                             selected_index := 0 } }

/-- An editor record that fails validation (empty name). -/
def edBad : StyleEditorData :=
  { style_name := "", original_name := "", content := "some content",
    is_new := true }

/-- An editor record that passes validation. -/
def edGood : StyleEditorData :=
  { style_name := "newstyle", original_name := "", content := "hello",
    is_new := true }

/-- Editor screen over the manager, invalid edit in progress. -/
def ctxEdBad : UIContext :=
  { ctxMgr with state := UIState.style_editor,
                style_editor_data := some edBad }

/-- Editor screen over the manager, valid edit in progress. -/
def ctxEdGood : UIContext :=
  { ctxMgr with state := UIState.style_editor,
                style_editor_data := some edGood }

/-- Embeds `fs0` with an export snapshot available for import. -/
def fsExp : FileSystem :=
  { fs0 with latest_export := some [("zeta", styA)] }

/-! ## Theorems -/

/-- C9: when no raw keyboard input source is available (`msvcrt` absent),
`EventDispatcher.get_event` returns `None` and leaves the dispatcher
unchanged, so every subsequent call returns `None` as well; being a total
function, it never raises. -/
theorem get_event_none_without_msvcrt (d : EventDispatcher)
    (h : d.has_msvcrt = false) : d.get_event = (none, d) := by
  simp [EventDispatcher.get_event, h]

/-- Witness for `get_event_none_without_msvcrt` at a concrete dispatcher. -/
theorem get_event_none_without_msvcrt_witness :
    EventDispatcher.get_event { has_msvcrt := false, pending := ["q"] } =
      (none, { has_msvcrt := false, pending := ["q"] }) :=
  get_event_none_without_msvcrt { has_msvcrt := false, pending := ["q"] } rfl

/-- C2, counterexample: toggling the favorite `"a"` twice on `["a", "b"]`
yields `["b", "a"]`, not the original list — the first toggle removes `"a"`
and the second appends it at the end. -/
theorem toggle_favorite_not_involutive :
    toggle_favorite "a" (toggle_favorite "a" ["a", "b"]) = ["b", "a"] ∧
      (["b", "a"] : List String) ≠ ["a", "b"] := by
  decide

/-- C4: the code is wrong at the spec's direct-numeric-selection behavior:
`elif key in data.items` compares the key string with `(key, name)` tuples,
which is always `False` in Python, so pressing `"2"` on a two-item selection
leaves the context (in particular `selected_index = 0`) completely unchanged,
even though the branch body would have computed the intended index 1. -/
theorem direct_numeric_key_is_dead_code :
    handle_style_selection_keys fs0 ctxSel "2" = ctxSel ∧
      ctxSel.selection_data.map SelectionData.selected_index = some 0 ∧
      ([("1", "Sarcastic"), ("2", "Poetic")].map Prod.fst).indexOf "2" = 1 := by
  decide

/-- C10: `toggle_favorite` copies its argument before mutating: at the
object level, the favorites list passed in holds the same value after the
call, and the returned list is a freshly allocated, distinct object whose
value is the toggled list. -/
theorem toggle_favorite_no_mutation (h : Heap) (favorites : Nat)
    (style_name : String) (hlt : favorites < h.length) :
    heapGet (toggle_favorite_ref h favorites style_name).1 favorites =
        heapGet h favorites ∧
      (toggle_favorite_ref h favorites style_name).2 ≠ favorites ∧
      heapGet (toggle_favorite_ref h favorites style_name).1
          (toggle_favorite_ref h favorites style_name).2 =
        toggle_favorite style_name (heapGet h favorites) := by
  have hne : h.length ≠ favorites := by omega
  simp only [toggle_favorite_ref, heapSet, heapAlloc, heapGet]
  by_cases hmem : style_name ∈ (h[favorites]?).getD [] <;>
    simp [toggle_favorite, hmem, hne, List.getElem?_append_left hlt,
      List.getElem?_concat_length]

/-- Witness for `toggle_favorite_no_mutation` at a concrete heap. -/
theorem toggle_favorite_no_mutation_witness :
    heapGet (toggle_favorite_ref [["a"]] 0 "b").1 0 = heapGet [["a"]] 0 ∧
      (toggle_favorite_ref [["a"]] 0 "b").2 ≠ 0 ∧
      heapGet (toggle_favorite_ref [["a"]] 0 "b").1
          (toggle_favorite_ref [["a"]] 0 "b").2 =
        toggle_favorite "b" (heapGet [["a"]] 0) :=
  toggle_favorite_no_mutation [["a"]] 0 "b" (by decide)

/-- C2, amended: toggling a favorite twice returns exactly the original list
when the name was not a favorite; when the name occurs exactly once, toggling
twice yields the list with that name moved to the end — the same favorites up
to permutation, but not necessarily the same list. -/
theorem toggle_favorite_twice :
    (∀ (favorites : List String) (name : String), name ∉ favorites →
      toggle_favorite name (toggle_favorite name favorites) = favorites) ∧
    (∀ (favorites : List String) (name : String), favorites.count name = 1 →
      toggle_favorite name (toggle_favorite name favorites) =
          favorites.erase name ++ [name] ∧
        List.Perm (toggle_favorite name (toggle_favorite name favorites))
          favorites) := by
  constructor
  · intro favs name hnm
    simp only [toggle_favorite, if_neg hnm]
    have hmem : name ∈ favs ++ [name] := by simp
    rw [if_pos hmem, List.erase_append_right _ hnm]
    simp
  · intro favs name hcount
    have hmem : name ∈ favs := by
      rw [← List.count_pos_iff]
      omega
    have h1 : toggle_favorite name favs = favs.erase name := by
      simp [toggle_favorite, hmem]
    have hnotmem : name ∉ favs.erase name := by
      have hce := List.count_erase_self name favs
      intro hc
      have := List.count_pos_iff.mpr hc
      omega
    have h2 : toggle_favorite name (favs.erase name) =
        favs.erase name ++ [name] := by
      simp [toggle_favorite, hnotmem]
    refine ⟨by rw [h1, h2], ?_⟩
    rw [h1, h2]
    exact (List.perm_append_singleton name (favs.erase name)).trans
      (List.perm_cons_erase hmem).symm

/-- Witness for `toggle_favorite_twice` at concrete lists. -/
theorem toggle_favorite_twice_witness :
    toggle_favorite "a" (toggle_favorite "a" ["b"]) = ["b"] ∧
      (toggle_favorite "a" (toggle_favorite "a" ["a", "b"]) =
          (["a", "b"] : List String).erase "a" ++ ["a"] ∧
        List.Perm (toggle_favorite "a" (toggle_favorite "a" ["a", "b"]))
          ["a", "b"]) :=
  ⟨toggle_favorite_twice.1 ["b"] "a" (by decide),
   toggle_favorite_twice.2 ["a", "b"] "a" (by decide)⟩

/-- C1, counterexample: deleting `"a"` from `{a, b, c}` with favorite `"c"`
re-sorts `style_names` to plain alphabetical `["b", "c"]`, while the spec's
favorites-first rule demands `["c", "b"]`. -/
theorem delete_ignores_favorites_counterexample :
    ((execute_delete_style fs0 ctxMgr "a").1.style_manager_data.map
        (fun d => d.style_names)) = some ["b", "c"] ∧
      ((execute_delete_style fs0 ctxMgr "a").1.style_manager_data.map
        (fun d => styleNamesSpec d.favorites d.sort_mode (dictKeys d.styles))) =
        some ["c", "b"] ∧
      (["b", "c"] : List String) ≠ ["c", "b"] := by
  decide

/-- C3: `NumberInputData.confirm` implements the spec's numeric confirm
algorithm exactly — parse `current_value` as an integer (falling back to
`default_value` when empty), return `false` with the record unchanged when
parsing fails or the value lies outside the optional
`[min_value, max_value]` bounds, and otherwise store the value in `result`
and return `true`. -/
theorem confirm_eq_confirmSpec (d : NumberInputData) :
    d.confirm = confirmSpec d := by
  have hbounds : ∀ val : Int,
      (if (match d.min_value with
           | some m => decide (val < m)
           | none => false) = true then ((false, d) : Bool × NumberInputData)
       else if (match d.max_value with
           | some m => decide (m < val)
           | none => false) = true then (false, d)
       else (true, { d with result := some val })) =
      (if ((d.min_value.all fun m => decide (m ≤ val)) &&
           (d.max_value.all fun m => decide (val ≤ m))) = true then
        ((true, { d with result := some val }) : Bool × NumberInputData)
       else (false, d)) := by
    intro val
    cases d.min_value with
    | none =>
      cases d.max_value with
      | none => simp
      | some M =>
        by_cases h : M < val
        · simp [h, show ¬val ≤ M from by omega]
        · simp [h, show val ≤ M from by omega]
    | some m =>
      cases d.max_value with
      | none =>
        by_cases h : val < m
        · simp [h, show ¬m ≤ val from by omega]
        · simp [h, show m ≤ val from by omega]
      | some M =>
        by_cases h1 : val < m
        · simp [h1, show ¬m ≤ val from by omega]
        · by_cases h2 : M < val
          · simp [h1, h2, show m ≤ val from by omega,
              show ¬val ≤ M from by omega]
          · simp [h1, h2, show m ≤ val from by omega,
              show val ≤ M from by omega]
  by_cases hc : d.current_value = ""
  · simpa [NumberInputData.confirm, confirmSpec, hc] using
      hbounds d.default_value
  · cases hp : pyInt d.current_value with
    | none => simp [NumberInputData.confirm, confirmSpec, hc, hp]
    | some v =>
      simpa [NumberInputData.confirm, confirmSpec, hc, hp] using hbounds v

theorem length_mk_chars (l : List Char) : (String.mk l).length = l.length :=
  rfl

theorem strSplice_length (s : String) (i : Int) (c : Char)
    (h : i ≤ (s.length : Int)) :
    ((strSplice s i c).length : Int) = (s.length : Int) + 1 := by
  have hd : s.length = s.data.length := rfl
  simp only [strSplice, length_mk_chars, List.length_append,
    List.length_take, List.length_cons, List.length_drop]
  omega

theorem strDelBefore_length (s : String) (i : Int) (h1 : 0 < i)
    (h2 : i ≤ (s.length : Int)) :
    ((strDelBefore s i).length : Int) = (s.length : Int) - 1 := by
  have hd : s.length = s.data.length := rfl
  simp only [strDelBefore, length_mk_chars, List.length_append,
    List.length_take, List.length_drop]
  omega

theorem tiStep_inv (d : TextInputData) (op : BufOp) (h : tiInv d) :
    tiInv (tiStep d op) := by
  obtain ⟨h0, h1⟩ := h
  cases op with
  | insert c =>
    constructor
    · simp only [tiStep, TextInputData.insert_char]
      omega
    · simp only [tiStep, TextInputData.insert_char]
      rw [strSplice_length d.current_value d.cursor_position c h1]
      omega
  | back =>
    by_cases hp : d.cursor_position > 0
    · constructor
      · simp only [tiStep, TextInputData.backspace, if_pos hp]
        omega
      · simp only [tiStep, TextInputData.backspace, if_pos hp]
        rw [strDelBefore_length d.current_value d.cursor_position hp h1]
        omega
    · simp only [tiStep, TextInputData.backspace, if_neg hp]
      exact ⟨h0, h1⟩
  | left =>
    constructor
    · simp only [tiStep, TextInputData.move_cursor_left]
      omega
    · simp only [tiStep, TextInputData.move_cursor_left]
      omega
  | right =>
    constructor
    · simp only [tiStep, TextInputData.move_cursor_right]
      omega
    · simp only [tiStep, TextInputData.move_cursor_right]
      omega

theorem seStep_inv (d : StyleEditorData) (op : BufOp) (h : seInv d) :
    seInv (seStep d op) := by
  obtain ⟨h0, h1⟩ := h
  cases op with
  | insert c =>
    by_cases hn : d.is_editing_name
    · have h1n : d.cursor_position ≤ (d.style_name.length : Int) := by
        simpa [seActive, hn] using h1
      constructor
      · simp only [seStep, StyleEditorData.insert_char, if_pos hn]
        omega
      · simp only [seStep, StyleEditorData.insert_char, if_pos hn, seActive, hn,
          reduceIte]
        rw [strSplice_length _ d.cursor_position c h1n]
        omega
    · have h1n : d.cursor_position ≤ (d.content.length : Int) := by
        simpa [seActive, hn] using h1
      constructor
      · simp only [seStep, StyleEditorData.insert_char, if_neg hn]
        omega
      · simp only [seStep, StyleEditorData.insert_char, if_neg hn, seActive, hn]
        simp only [Bool.false_eq_true, reduceIte]
        rw [strSplice_length _ d.cursor_position c h1n]
        omega
  | back =>
    by_cases hp : d.cursor_position > 0
    · by_cases hn : d.is_editing_name
      · have h1n : d.cursor_position ≤ (d.style_name.length : Int) := by
          simpa [seActive, hn] using h1
        constructor
        · simp only [seStep, StyleEditorData.backspace, if_pos hp, if_pos hn]
          omega
        · simp only [seStep, StyleEditorData.backspace, if_pos hp, if_pos hn,
            seActive, hn, reduceIte]
          rw [strDelBefore_length _ d.cursor_position hp h1n]
          omega
      · have h1n : d.cursor_position ≤ (d.content.length : Int) := by
          simpa [seActive, hn] using h1
        constructor
        · simp only [seStep, StyleEditorData.backspace, if_pos hp, if_neg hn]
          omega
        · simp only [seStep, StyleEditorData.backspace, if_pos hp, if_neg hn,
            seActive, hn]
          simp only [Bool.false_eq_true, reduceIte]
          rw [strDelBefore_length _ d.cursor_position hp h1n]
          omega
    · simp only [seStep, StyleEditorData.backspace, if_neg hp]
      exact ⟨h0, h1⟩
  | left =>
    constructor
    · simp only [seStep, StyleEditorData.move_cursor_left]
      omega
    · have hact : seActive (d.move_cursor_left) = seActive d := by
        simp [StyleEditorData.move_cursor_left, seActive]
      simp only [seStep, hact]
      simp only [StyleEditorData.move_cursor_left]
      omega
  | right =>
    by_cases hn : d.is_editing_name
    · constructor
      · simp only [seStep, StyleEditorData.move_cursor_right, hn, reduceIte]
        omega
      · simp only [seStep, StyleEditorData.move_cursor_right, hn, reduceIte,
          seActive]
        omega
    · constructor
      · simp only [seStep, StyleEditorData.move_cursor_right, hn]
        simp only [Bool.false_eq_true, reduceIte]
        omega
      · simp only [seStep, StyleEditorData.move_cursor_right, hn, seActive]
        simp only [Bool.false_eq_true, reduceIte]
        omega

/-- C7: for any sequence of `insert_char` / `backspace` / `move_cursor_left`
/ `move_cursor_right` calls on a `TextInputData` or a `StyleEditorData`
starting from a state with `0 ≤ cursor_position ≤ len(active buffer)`, the
invariant `0 ≤ cursor_position ≤ len(active buffer)` holds after every
call. -/
theorem text_buffer_invariant :
    (∀ (ops : List BufOp) (d : TextInputData), tiInv d → tiInv (tiRun ops d)) ∧
      (∀ (ops : List BufOp) (d : StyleEditorData), seInv d → seInv (seRun ops d)) := by
  constructor
  · intro ops
    induction ops with
    | nil => exact fun d h => h
    | cons op ops ih => exact fun d h => ih (tiStep d op) (tiStep_inv d op h)
  · intro ops
    induction ops with
    | nil => exact fun d h => h
    | cons op ops ih => exact fun d h => ih (seStep d op) (seStep_inv d op h)

/-- Witness for `text_buffer_invariant` at concrete call sequences. -/
theorem text_buffer_invariant_witness :
    tiInv (tiRun [BufOp.insert 'h', BufOp.insert 'i', BufOp.left, BufOp.back,
        BufOp.right] {}) ∧
      seInv (seRun [BufOp.insert 'h', BufOp.left, BufOp.back, BufOp.right]
        { content := "abc", is_editing_name := false, cursor_position := 2 }) :=
  ⟨text_buffer_invariant.1 _ {} (by decide),
   text_buffer_invariant.2 _
     { content := "abc", is_editing_name := false, cursor_position := 2 }
     (by decide)⟩

theorem sel_up_eq (fs : FileSystem) (ctx : UIContext) (d : SelectionData)
    (k : String) (hk : KeyMap.is_up k = true)
    (h : ctx.selection_data = some d) :
    handle_style_selection_keys fs ctx k =
      { ctx with selection_data := some { d with
          selected_index := max 0 (d.selected_index - 1) } } := by
  have hmem : "\xe0H" = k ∨ "\x1b[A" = k ∨ "\x1bOA" = k := by
    simpa [KeyMap.is_up, KeyMap.UP_KEYS, pyIn] using hk
  rcases hmem with rfl | rfl | rfl <;>
    (unfold handle_style_selection_keys; rw [h]; rfl)

theorem sel_down_eq (fs : FileSystem) (ctx : UIContext) (d : SelectionData)
    (k : String) (hk : KeyMap.is_down k = true)
    (h : ctx.selection_data = some d) :
    handle_style_selection_keys fs ctx k =
      { ctx with selection_data := some { d with
          selected_index := min ((d.items.length : Int) - 1)
            (d.selected_index + 1) } } := by
  have hmem : "\xe0P" = k ∨ "\x1b[B" = k ∨ "\x1bOB" = k := by
    simpa [KeyMap.is_down, KeyMap.DOWN_KEYS, pyIn] using hk
  rcases hmem with rfl | rfl | rfl <;>
    (unfold handle_style_selection_keys; rw [h]; rfl)

theorem mgr_up_eq (fs : FileSystem) (ctx : UIContext) (d : StyleManagerData)
    (k : String) (hk : KeyMap.is_up k = true)
    (h : ctx.style_manager_data = some d) :
    handle_style_manager_keys fs ctx k =
      ({ ctx with style_manager_data := some { d with
          selected_index := max 0 (d.selected_index - 1),
          message := "" } }, fs) := by
  have hmem : "\xe0H" = k ∨ "\x1b[A" = k ∨ "\x1bOA" = k := by
    simpa [KeyMap.is_up, KeyMap.UP_KEYS, pyIn] using hk
  rcases hmem with rfl | rfl | rfl <;>
    (unfold handle_style_manager_keys; rw [h]; rfl)

theorem mgr_down_eq (fs : FileSystem) (ctx : UIContext) (d : StyleManagerData)
    (k : String) (hk : KeyMap.is_down k = true)
    (h : ctx.style_manager_data = some d) :
    handle_style_manager_keys fs ctx k =
      ({ ctx with style_manager_data := some { d with
          selected_index := min ((d.style_names.length : Int) - 1)
            (d.selected_index + 1),
          message := "" } }, fs) := by
  have hmem : "\xe0P" = k ∨ "\x1b[B" = k ∨ "\x1bOB" = k := by
    simpa [KeyMap.is_down, KeyMap.DOWN_KEYS, pyIn] using hk
  rcases hmem with rfl | rfl | rfl <;>
    (unfold handle_style_manager_keys; rw [h]; rfl)

theorem sel_step_inv (fs : FileSystem) (ctx : UIContext) (d : SelectionData)
    (k : String) (hk : KeyMap.is_up k = true ∨ KeyMap.is_down k = true)
    (h : ctx.selection_data = some d) (hne : d.items ≠ [])
    (h0 : 0 ≤ d.selected_index)
    (h1 : d.selected_index < (d.items.length : Int)) :
    ∃ d2, handle_style_selection_keys fs ctx k =
        { ctx with selection_data := some d2 } ∧
      d2.items = d.items ∧ 0 ≤ d2.selected_index ∧
      d2.selected_index < (d.items.length : Int) := by
  have hlen : 0 < (d.items.length : Int) := by
    have := List.length_pos.mpr hne
    omega
  rcases hk with hk | hk
  · rw [sel_up_eq fs ctx d k hk h]
    exact ⟨_, rfl, rfl, le_max_left 0 _, max_lt hlen (by omega)⟩
  · rw [sel_down_eq fs ctx d k hk h]
    exact ⟨_, rfl, rfl, le_min (by omega) (by omega),
      lt_of_le_of_lt (min_le_left _ _) (by omega)⟩

theorem mgr_step_inv (fs : FileSystem) (ctx : UIContext) (d : StyleManagerData)
    (k : String) (hk : KeyMap.is_up k = true ∨ KeyMap.is_down k = true)
    (h : ctx.style_manager_data = some d) (hne : d.style_names ≠ [])
    (h0 : 0 ≤ d.selected_index)
    (h1 : d.selected_index < (d.style_names.length : Int)) :
    ∃ d2, handle_style_manager_keys fs ctx k =
        ({ ctx with style_manager_data := some d2 }, fs) ∧
      d2.style_names = d.style_names ∧ 0 ≤ d2.selected_index ∧
      d2.selected_index < (d.style_names.length : Int) := by
  have hlen : 0 < (d.style_names.length : Int) := by
    have := List.length_pos.mpr hne
    omega
  rcases hk with hk | hk
  · rw [mgr_up_eq fs ctx d k hk h]
    exact ⟨_, rfl, rfl, le_max_left 0 _, max_lt hlen (by omega)⟩
  · rw [mgr_down_eq fs ctx d k hk h]
    exact ⟨_, rfl, rfl, le_min (by omega) (by omega),
      lt_of_le_of_lt (min_le_left _ _) (by omega)⟩

/-- C8: in the selection screens (style selection and style manager), after
any sequence of up/down key events on a non-empty list, `selected_index`
stays within `[0, len)`: it saturates at the bounds, never wraps and never
goes negative; the items and the file system are untouched. -/
theorem updown_selected_index_invariant :
    (∀ (fs : FileSystem) (keys : List String) (ctx : UIContext)
        (d : SelectionData),
      (∀ k ∈ keys, KeyMap.is_up k = true ∨ KeyMap.is_down k = true) →
      ctx.selection_data = some d → d.items ≠ [] →
      0 ≤ d.selected_index → d.selected_index < (d.items.length : Int) →
      ∃ d2, (runSelectionKeys fs keys ctx).selection_data = some d2 ∧
        d2.items = d.items ∧ 0 ≤ d2.selected_index ∧
        d2.selected_index < (d.items.length : Int)) ∧
    (∀ (fs : FileSystem) (keys : List String) (ctx : UIContext)
        (d : StyleManagerData),
      (∀ k ∈ keys, KeyMap.is_up k = true ∨ KeyMap.is_down k = true) →
      ctx.style_manager_data = some d → d.style_names ≠ [] →
      0 ≤ d.selected_index → d.selected_index < (d.style_names.length : Int) →
      ∃ d2, (runManagerKeys fs keys ctx).1.style_manager_data = some d2 ∧
        d2.style_names = d.style_names ∧ 0 ≤ d2.selected_index ∧
        d2.selected_index < (d.style_names.length : Int) ∧
        (runManagerKeys fs keys ctx).2 = fs) := by
  constructor
  · intro fs keys
    induction keys with
    | nil =>
      intro ctx d _ h hne h0 h1
      exact ⟨d, h, rfl, h0, h1⟩
    | cons k ks ih =>
      intro ctx d hks h hne h0 h1
      obtain ⟨d1, heq, hit, g0, g1⟩ :=
        sel_step_inv fs ctx d k (hks k (by simp)) h hne h0 h1
      have hrun : runSelectionKeys fs (k :: ks) ctx =
          runSelectionKeys fs ks { ctx with selection_data := some d1 } := by
        have : runSelectionKeys fs (k :: ks) ctx =
            runSelectionKeys fs ks (handle_style_selection_keys fs ctx k) := rfl
        rw [this, heq]
      rw [← hit] at g1
      obtain ⟨d2, hd2, hit2, g20, g21⟩ :=
        ih { ctx with selection_data := some d1 } d1
          (fun k2 hk2 => hks k2 (by simp [hk2])) rfl
          (by rw [hit]; exact hne) g0 g1
      rw [hit] at hit2 g21
      exact ⟨d2, by rw [hrun]; exact hd2, hit2, g20, g21⟩
  · intro fs keys
    induction keys generalizing fs with
    | nil =>
      intro ctx d _ h hne h0 h1
      exact ⟨d, h, rfl, h0, h1, rfl⟩
    | cons k ks ih =>
      intro ctx d hks h hne h0 h1
      obtain ⟨d1, heq, hnm, g0, g1⟩ :=
        mgr_step_inv fs ctx d k (hks k (by simp)) h hne h0 h1
      have hrun : runManagerKeys fs (k :: ks) ctx =
          runManagerKeys fs ks { ctx with style_manager_data := some d1 } := by
        have : runManagerKeys fs (k :: ks) ctx =
            runManagerKeys (handle_style_manager_keys fs ctx k).2 ks
              (handle_style_manager_keys fs ctx k).1 := rfl
        rw [this, heq]
      rw [← hnm] at g1
      obtain ⟨d2, hd2, hnm2, g20, g21, gfs⟩ :=
        ih fs { ctx with style_manager_data := some d1 } d1
          (fun k2 hk2 => hks k2 (by simp [hk2])) rfl
          (by rw [hnm]; exact hne) g0 g1
      rw [hnm] at hnm2 g21
      exact ⟨d2, by rw [hrun]; exact hd2, hnm2, g20, g21,
        by rw [hrun]; exact gfs⟩

/-- Witness for `updown_selected_index_invariant` at concrete key sequences
(arrow keys on the two-item selection screen and on the three-style manager
screen). -/
theorem updown_selected_index_invariant_witness :
    (∃ d2, (runSelectionKeys fs0 ["\xe0H", "\xe0H", "\xe0P"] ctxSel).selection_data =
        some d2 ∧
      d2.items = [("1", "Sarcastic"), ("2", "Poetic")] ∧
      0 ≤ d2.selected_index ∧ d2.selected_index < (2 : Int)) ∧
    (∃ d2, (runManagerKeys fs0 ["\xe0P", "\xe0P", "\xe0P", "\xe0H"] ctxMgr).1.style_manager_data =
        some d2 ∧
      d2.style_names = mgr0.style_names ∧ 0 ≤ d2.selected_index ∧
      d2.selected_index < (mgr0.style_names.length : Int) ∧
      (runManagerKeys fs0 ["\xe0P", "\xe0P", "\xe0P", "\xe0H"] ctxMgr).2 = fs0) := by
  constructor
  · have := updown_selected_index_invariant.1 fs0 ["\xe0H", "\xe0H", "\xe0P"]
      ctxSel { items := [("1", "Sarcastic"), ("2", "Poetic")],
               selected_index := 0 }
      (by decide) rfl (by decide) (by decide) (by decide)
    simpa using this
  · exact updown_selected_index_invariant.2 fs0
      ["\xe0P", "\xe0P", "\xe0P", "\xe0H"] ctxMgr mgr0
      (by decide) rfl (by decide) (by decide) (by decide)

theorem mgr_delete_eq (fs : FileSystem) (ctx : UIContext)
    (d : StyleManagerData) (k : String) (hk : KeyMap.is_delete k = true)
    (h : ctx.style_manager_data = some d) (hne : d.style_names ≠ []) :
    handle_style_manager_keys fs ctx k =
      (show_delete_confirmation ctx
        (d.style_names.getD d.selected_index.toNat ""), fs) := by
  have hmem : "d" = k ∨ "D" = k ∨ "в" = k ∨ "В" = k := by
    simpa [KeyMap.is_delete, pyIn] using hk
  rcases hmem with rfl | rfl | rfl | rfl <;>
    · unfold handle_style_manager_keys
      rw [h]
      show (if d.style_names ≠ [] then _ else _) = _
      rw [if_pos hne]

theorem conf_no_eq (fs : FileSystem) (ctx : UIContext) (c : ConfirmationData)
    (key : String) (hc : ctx.confirmation_data = some c)
    (hkey : pyLower key = "n" ∨ key = KeyMap.ESC_KEY) :
    handle_confirmation_keys fs ctx key =
      ({ ctx with
          confirmation_data := some { c with confirmed := some false },
          state := c.previous_state }, fs) := by
  unfold handle_confirmation_keys
  rw [hc]
  rcases hkey with hn | rfl
  · have h1 : (pyLower key == "y") = false := by rw [hn]; rfl
    have h2 : (pyLower key == "n") = true := by rw [hn]; rfl
    simp only [h1, h2, Bool.false_eq_true, Bool.true_or, reduceIte]
  · rfl

theorem conf_yes_eq (fs : FileSystem) (ctx : UIContext) (c : ConfirmationData)
    (key : String) (hc : ctx.confirmation_data = some c)
    (hy : pyLower key = "y") :
    handle_confirmation_keys fs ctx key =
      ({ (execute_delete_style fs
            { ctx with confirmation_data := some { c with confirmed := some true } }
            c.action_name).1 with state := c.previous_state },
       (execute_delete_style fs
          { ctx with confirmation_data := some { c with confirmed := some true } }
          c.action_name).2) := by
  unfold handle_confirmation_keys
  rw [hc]
  have h1 : (pyLower key == "y") = true := by rw [hy]; rfl
  simp only [h1, reduceIte]

theorem conf_other_eq (fs : FileSystem) (ctx : UIContext) (key : String)
    (hy : pyLower key ≠ "y") (hn : pyLower key ≠ "n")
    (he : key ≠ KeyMap.ESC_KEY) :
    handle_confirmation_keys fs ctx key = (ctx, fs) := by
  unfold handle_confirmation_keys
  cases hcc : ctx.confirmation_data with
  | none => rfl
  | some c =>
    have h1 : (pyLower key == "y") = false := by
      simpa using hy
    have h2 : (pyLower key == "n") = false := by
      simpa using hn
    have h3 : (key == KeyMap.ESC_KEY) = false := by
      simpa using he
    simp only [h1, h2, h3, Bool.false_eq_true, Bool.or_self, reduceIte]

theorem execute_delete_props (fs : FileSystem) (ctx : UIContext)
    (name : String) (d : StyleManagerData)
    (h : ctx.style_manager_data = some d)
    (hc : dictContains d.styles name = true) :
    ∃ d2, (execute_delete_style fs ctx name).1.style_manager_data = some d2 ∧
      d2.styles = load_styles (save_styles fs (dictErase d.styles name)) ∧
      d2.style_names = pySorted (dictKeys d2.styles) ∧
      (execute_delete_style fs ctx name).2 =
        save_styles fs (dictErase d.styles name) := by
  unfold execute_delete_style
  rw [h]
  simp only [hc, reduceIte]
  exact ⟨_, rfl, rfl, rfl, trivial⟩

theorem contains_after_delete (fs : FileSystem) (D : StyleDict)
    (name : String) :
    dictContains (load_styles (save_styles fs (dictErase D name))) name =
      false := by
  simp only [load_styles, save_styles, dictErase, dictContains]
  rw [List.any_eq_false]
  intro p hp
  have hmem := (List.mem_filter.mp (List.mem_filter.mp hp).1).2
  simp at hmem ⊢
  exact hmem

/-- C5: a style is removed and the removal persisted only through the
confirmation screen's explicit yes: the delete mnemonic only transitions to
`Confirmation`, leaving the manager data and the file system untouched;
`'n'` or ESC returns to the stored previous state with everything untouched;
`'y'` removes the entry from the styles and persists the erased dict; any
other key changes nothing. -/
theorem delete_requires_confirmation :
    (∀ (fs : FileSystem) (ctx : UIContext) (d : StyleManagerData) (k : String),
      ctx.style_manager_data = some d → d.style_names ≠ [] →
      KeyMap.is_delete k = true →
      (handle_style_manager_keys fs ctx k).1.state = UIState.confirmation ∧
        (handle_style_manager_keys fs ctx k).1.style_manager_data = some d ∧
        (handle_style_manager_keys fs ctx k).2 = fs) ∧
    (∀ (fs : FileSystem) (ctx : UIContext) (c : ConfirmationData) (key : String),
      ctx.confirmation_data = some c →
      (pyLower key = "n" ∨ key = KeyMap.ESC_KEY) →
      (handle_confirmation_keys fs ctx key).1.state = c.previous_state ∧
        (handle_confirmation_keys fs ctx key).1.style_manager_data =
          ctx.style_manager_data ∧
        (handle_confirmation_keys fs ctx key).2 = fs) ∧
    (∀ (fs : FileSystem) (ctx : UIContext) (c : ConfirmationData)
        (d : StyleManagerData) (key : String),
      ctx.confirmation_data = some c → ctx.style_manager_data = some d →
      dictContains d.styles c.action_name = true → pyLower key = "y" →
      ∃ d2, (handle_confirmation_keys fs ctx key).1.style_manager_data = some d2 ∧
        dictContains d2.styles c.action_name = false ∧
        (handle_confirmation_keys fs ctx key).1.state = c.previous_state ∧
        (handle_confirmation_keys fs ctx key).2 =
          save_styles fs (dictErase d.styles c.action_name)) ∧
    (∀ (fs : FileSystem) (ctx : UIContext) (key : String),
      pyLower key ≠ "y" → pyLower key ≠ "n" → key ≠ KeyMap.ESC_KEY →
      handle_confirmation_keys fs ctx key = (ctx, fs)) := by
  refine ⟨?_, ?_, ?_, ?_⟩
  · intro fs ctx d k h hne hk
    rw [mgr_delete_eq fs ctx d k hk h hne]
    exact ⟨rfl, h, rfl⟩
  · intro fs ctx c key hc hkey
    rw [conf_no_eq fs ctx c key hc hkey]
    exact ⟨rfl, rfl, rfl⟩
  · intro fs ctx c d key hc hsm hcont hy
    rw [conf_yes_eq fs ctx c key hc hy]
    obtain ⟨d2, hd2, hsty, _hnames, hfs⟩ :=
      execute_delete_props fs
        { ctx with confirmation_data := some { c with confirmed := some true } }
        c.action_name d hsm hcont
    refine ⟨d2, hd2, ?_, rfl, hfs⟩
    rw [hsty]
    exact contains_after_delete fs d.styles c.action_name
  · intro fs ctx key hy hn he
    exact conf_other_eq fs ctx key hy hn he

/-- Witness for `delete_requires_confirmation` on the three-style fixture:
press the delete mnemonic on `"c"`... on `ctxMgr`, cancel with `'n'`,
confirm with `'y'`, and press an unrelated key. -/
theorem delete_requires_confirmation_witness :
    ((handle_style_manager_keys fs0 ctxMgr "d").1.state = UIState.confirmation ∧
      (handle_style_manager_keys fs0 ctxMgr "d").1.style_manager_data = some mgr0 ∧
      (handle_style_manager_keys fs0 ctxMgr "d").2 = fs0) ∧
    ((handle_confirmation_keys fs0 ctxConf "n").1.state = confA.previous_state ∧
      (handle_confirmation_keys fs0 ctxConf "n").1.style_manager_data =
        ctxConf.style_manager_data ∧
      (handle_confirmation_keys fs0 ctxConf "n").2 = fs0) ∧
    (∃ d2, (handle_confirmation_keys fs0 ctxConf "y").1.style_manager_data = some d2 ∧
      dictContains d2.styles confA.action_name = false ∧
      (handle_confirmation_keys fs0 ctxConf "y").1.state = confA.previous_state ∧
      (handle_confirmation_keys fs0 ctxConf "y").2 =
        save_styles fs0 (dictErase mgr0.styles confA.action_name)) ∧
    handle_confirmation_keys fs0 ctxConf "z" = (ctxConf, fs0) :=
  ⟨delete_requires_confirmation.1 fs0 ctxMgr mgr0 "d" rfl (by decide) (by decide),
   delete_requires_confirmation.2.1 fs0 ctxConf confA "n" rfl (Or.inl (by decide)),
   delete_requires_confirmation.2.2.1 fs0 ctxConf confA mgr0 "y" rfl rfl
     (by decide) (by decide),
   delete_requires_confirmation.2.2.2 fs0 ctxConf "z" (by decide) (by decide)
     (by decide)⟩

theorem reload_smd (fs : FileSystem) (ctx : UIContext) :
    (reload_style_selection fs ctx).style_manager_data =
      ctx.style_manager_data := by
  unfold reload_style_selection
  cases hcc : ctx.selection_data with
  | none => rfl
  | some sel => rfl

theorem editor_esc_eq (fs : FileSystem) (ctx : UIContext) :
    handle_style_editor_keys fs ctx KeyMap.ESC_KEY =
      save_style_from_editor fs ctx := by
  unfold handle_style_editor_keys
  cases hcc : ctx.style_editor_data with
  | none =>
    unfold save_style_from_editor
    rw [hcc]
  | some e => rfl

theorem save_invalid_eq (fs : FileSystem) (ctx : UIContext)
    (e : StyleEditorData) (err : String) (h : ctx.style_editor_data = some e)
    (hv : validate_style e.style_name e.content = some err) :
    save_style_from_editor fs ctx =
      ({ ctx with style_editor_data := some { e with error_message := err } },
       fs) := by
  unfold save_style_from_editor
  simp only [h, hv]

theorem save_valid_props (fs : FileSystem) (ctx : UIContext)
    (e : StyleEditorData) (d : StyleManagerData)
    (he : ctx.style_editor_data = some e)
    (hd : ctx.style_manager_data = some d)
    (hv : validate_style e.style_name e.content = none) :
    (save_style_from_editor fs ctx).1.state = UIState.style_manager ∧
      (save_style_from_editor fs ctx).2 =
        save_styles fs (editorNewStyles e d) := by
  constructor <;>
    · unfold save_style_from_editor
      simp only [he, hv, hd, editorNewStyles]

theorem editor_esc_not_cancel (fs : FileSystem) (ctx : UIContext)
    (hst : ctx.state = UIState.style_editor) :
    (handle_style_editor_keys fs ctx KeyMap.ESC_KEY).1.state =
        UIState.style_editor ∨
      (handle_style_editor_keys fs ctx KeyMap.ESC_KEY).1.state =
        UIState.style_manager := by
  rw [editor_esc_eq]
  unfold save_style_from_editor
  split
  · exact Or.inl hst
  · split
    · exact Or.inl hst
    · split
      · exact Or.inl hst
      · exact Or.inr rfl

/-- C6: in the style editor, ESC invokes the save routine instead of
cancelling: pressing ESC is the same call as saving; a validation failure
stores the error message and leaves everything else (state included)
unchanged; a successful save persists the new styles dict and returns to the
style manager; and from the editor, ESC can only land in the editor (on
failure) or the manager (on success) — never in `Cancelled`. -/
theorem editor_esc_saves :
    (∀ (fs : FileSystem) (ctx : UIContext),
      handle_style_editor_keys fs ctx KeyMap.ESC_KEY =
        save_style_from_editor fs ctx) ∧
    (∀ (fs : FileSystem) (ctx : UIContext) (e : StyleEditorData) (err : String),
      ctx.style_editor_data = some e →
      validate_style e.style_name e.content = some err →
      handle_style_editor_keys fs ctx KeyMap.ESC_KEY =
        ({ ctx with style_editor_data := some { e with error_message := err } },
         fs)) ∧
    (∀ (fs : FileSystem) (ctx : UIContext) (e : StyleEditorData)
        (d : StyleManagerData),
      ctx.style_editor_data = some e → ctx.style_manager_data = some d →
      validate_style e.style_name e.content = none →
      (handle_style_editor_keys fs ctx KeyMap.ESC_KEY).1.state =
          UIState.style_manager ∧
        (handle_style_editor_keys fs ctx KeyMap.ESC_KEY).2 =
          save_styles fs (editorNewStyles e d)) ∧
    (∀ (fs : FileSystem) (ctx : UIContext),
      ctx.state = UIState.style_editor →
      (handle_style_editor_keys fs ctx KeyMap.ESC_KEY).1.state ≠
        UIState.cancelled) := by
  refine ⟨editor_esc_eq, ?_, ?_, ?_⟩
  · intro fs ctx e err he hv
    rw [editor_esc_eq]
    exact save_invalid_eq fs ctx e err he hv
  · intro fs ctx e d he hd hv
    rw [editor_esc_eq]
    exact save_valid_props fs ctx e d he hd hv
  · intro fs ctx hst
    rcases editor_esc_not_cancel fs ctx hst with h | h <;> rw [h] <;> decide

/-- Witness for `editor_esc_saves`: ESC on an invalid edit stores the
validation message and stays; ESC on a valid edit persists and returns to
the manager; neither cancels. -/
theorem editor_esc_saves_witness :
    handle_style_editor_keys fs0 ctxEdGood KeyMap.ESC_KEY =
        save_style_from_editor fs0 ctxEdGood ∧
      handle_style_editor_keys fs0 ctxEdBad KeyMap.ESC_KEY =
        ({ ctxEdBad with
            style_editor_data :=
              some { edBad with error_message := "Style name cannot be empty" } },
         fs0) ∧
      ((handle_style_editor_keys fs0 ctxEdGood KeyMap.ESC_KEY).1.state =
          UIState.style_manager ∧
        (handle_style_editor_keys fs0 ctxEdGood KeyMap.ESC_KEY).2 =
          save_styles fs0 (editorNewStyles edGood mgr0)) ∧
      (handle_style_editor_keys fs0 ctxEdGood KeyMap.ESC_KEY).1.state ≠
        UIState.cancelled :=
  ⟨editor_esc_saves.1 fs0 ctxEdGood,
   editor_esc_saves.2.1 fs0 ctxEdBad edBad "Style name cannot be empty" rfl
     (by decide),
   editor_esc_saves.2.2.1 fs0 ctxEdGood edGood mgr0 rfl rfl (by decide),
   editor_esc_saves.2.2.2 fs0 ctxEdGood rfl⟩

/-- C1, amended: after each style-manager mutation the derived `style_names`
follows the order `expectedNames` gives for that mutation — plain ascending
for save-from-editor and delete (favorites and `sort_mode` ignored),
favorites-first ascending for copy, favorite toggle and import (`sort_mode`
ignored), and the full favorites-first-in-`sort_mode`-direction rule only
for the sort toggle. -/
theorem mutation_style_names_order (fs : FileSystem) (ctx : UIContext)
    (m : ManagerMutation) (hpre : mutationPre fs ctx m = true) :
    ((applyMutation fs ctx m).1.style_manager_data).map
        (fun d2 => d2.style_names) =
      ((applyMutation fs ctx m).1.style_manager_data).map
        (fun d2 => expectedNames m d2) := by
  cases m with
  | save =>
    simp only [applyMutation]
    simp only [mutationPre, Bool.and_eq_true] at hpre
    obtain ⟨h1, h2⟩ := hpre
    cases hd : ctx.style_manager_data with
    | none => rw [hd] at h1; simp at h1
    | some d =>
      cases he : ctx.style_editor_data with
      | none => rw [he] at h2; simp at h2
      | some e =>
        rw [he] at h2
        have hv : validate_style e.style_name e.content = none := by
          simpa using h2
        unfold save_style_from_editor
        simp only [he, hv, hd, reload_smd, Option.map_some, expectedNames]
        rfl
  | deleteStyle name =>
    simp only [applyMutation]
    simp only [mutationPre] at hpre
    cases hd : ctx.style_manager_data with
    | none => rw [hd] at hpre; simp at hpre
    | some d =>
      rw [hd] at hpre
      have hc : dictContains d.styles name = true := by simpa using hpre
      obtain ⟨d2, hd2, _hsty, hnames, _⟩ :=
        execute_delete_props fs ctx name d hd hc
      rw [hd2]
      simp only [Option.map, expectedNames]
      rw [hnames]
  | copyStyle name =>
    simp only [applyMutation]
    simp only [mutationPre] at hpre
    cases hd : ctx.style_manager_data with
    | none => rw [hd] at hpre; simp at hpre
    | some d =>
      rw [hd] at hpre
      have hc : dictContains d.styles name = true := by simpa using hpre
      unfold copy_style
      simp only [hd, hc, Bool.not_true, Bool.false_eq_true, reduceIte,
        reload_smd, Option.map_some, expectedNames]
      rfl
  | favoriteToggle name =>
    simp only [applyMutation]
    simp only [mutationPre] at hpre
    cases hd : ctx.style_manager_data with
    | none => rw [hd] at hpre; simp at hpre
    | some d =>
      unfold toggle_favorite_op
      simp only [hd, Option.map_some, expectedNames]
      rfl
  | sortToggle =>
    simp only [applyMutation]
    simp only [mutationPre] at hpre
    cases hd : ctx.style_manager_data with
    | none => rw [hd] at hpre; simp at hpre
    | some d =>
      unfold toggle_sort_op
      simp only [hd, Option.map_some, expectedNames, styleNamesSpec]
      rfl
  | importLatest =>
    simp only [applyMutation]
    simp only [mutationPre, Bool.and_eq_true] at hpre
    obtain ⟨h1, h2⟩ := hpre
    cases hd : ctx.style_manager_data with
    | none => rw [hd] at h1; simp at h1
    | some d =>
      cases hle : fs.latest_export with
      | none => rw [hle] at h2; simp at h2
      | some imported =>
        rw [hle] at h2
        have hm : import_styles_merge fs imported ≠ [] := by simpa using h2
        unfold import_styles_op
        simp only [hd, hle]
        rw [if_pos hm]
        simp only [reload_smd, Option.map_some, expectedNames]
        rfl

/-- Witness for `mutation_style_names_order`: all six mutations exercised on
the three-style fixture (the editor holding a valid new style for save, and
an export snapshot present for import). -/
theorem mutation_style_names_order_witness :
    (((applyMutation fs0 ctxEdGood ManagerMutation.save).1.style_manager_data).map
        (fun d2 => d2.style_names) =
      ((applyMutation fs0 ctxEdGood ManagerMutation.save).1.style_manager_data).map
        (fun d2 => expectedNames ManagerMutation.save d2)) ∧
    (((applyMutation fs0 ctxMgr (ManagerMutation.deleteStyle "a")).1.style_manager_data).map
        (fun d2 => d2.style_names) =
      ((applyMutation fs0 ctxMgr (ManagerMutation.deleteStyle "a")).1.style_manager_data).map
        (fun d2 => expectedNames (ManagerMutation.deleteStyle "a") d2)) ∧
    (((applyMutation fs0 ctxMgr (ManagerMutation.copyStyle "a")).1.style_manager_data).map
        (fun d2 => d2.style_names) =
      ((applyMutation fs0 ctxMgr (ManagerMutation.copyStyle "a")).1.style_manager_data).map
        (fun d2 => expectedNames (ManagerMutation.copyStyle "a") d2)) ∧
    (((applyMutation fs0 ctxMgr (ManagerMutation.favoriteToggle "b")).1.style_manager_data).map
        (fun d2 => d2.style_names) =
      ((applyMutation fs0 ctxMgr (ManagerMutation.favoriteToggle "b")).1.style_manager_data).map
        (fun d2 => expectedNames (ManagerMutation.favoriteToggle "b") d2)) ∧
    (((applyMutation fs0 ctxMgr ManagerMutation.sortToggle).1.style_manager_data).map
        (fun d2 => d2.style_names) =
      ((applyMutation fs0 ctxMgr ManagerMutation.sortToggle).1.style_manager_data).map
        (fun d2 => expectedNames ManagerMutation.sortToggle d2)) ∧
    (((applyMutation fsExp ctxMgr ManagerMutation.importLatest).1.style_manager_data).map
        (fun d2 => d2.style_names) =
      ((applyMutation fsExp ctxMgr ManagerMutation.importLatest).1.style_manager_data).map
        (fun d2 => expectedNames ManagerMutation.importLatest d2)) :=
  ⟨mutation_style_names_order fs0 ctxEdGood ManagerMutation.save (by decide),
   mutation_style_names_order fs0 ctxMgr (ManagerMutation.deleteStyle "a")
     (by decide),
   mutation_style_names_order fs0 ctxMgr (ManagerMutation.copyStyle "a")
     (by decide),
   mutation_style_names_order fs0 ctxMgr (ManagerMutation.favoriteToggle "b")
     (by decide),
   mutation_style_names_order fs0 ctxMgr ManagerMutation.sortToggle (by decide),
   mutation_style_names_order fsExp ctxMgr ManagerMutation.importLatest
     (by decide)⟩

end ObserverWard
